import Mathlib

/-!
Shallow embedding of the video-stream core of the repository
(`core/video_source.py`, `core/camera_manager.py`, `core/sync_manager.py`).

Python floats are modelled as rationals (`ℚ`), machine strings as `List Char`,
the frame queue as a `List` (oldest first), and the decode worker's control
flow as explicit step functions on a state record.  External effects
(`av.open`, decoding) are abstracted as parameters (probe outcomes, frame
sequences).
-/

namespace FODCL

/-- RTSP transport protocol, `'tcp'` or `'udp'` in the Python source. -/
inductive Transport where
  | tcp : Transport
  | udp : Transport
deriving DecidableEq, Repr

/-- `switch_transport_protocol`'s toggle: tcp ↔ udp. -/
def Transport.toggle : Transport → Transport
  | .tcp => .udp
  | .udp => .tcp

/-! ## Network quality score (`VideoSource._check_network_quality`) -/

/-- `connection_stability = max(0, 1.0 - (self.connection_failures / 10.0))`. -/
def connection_stability (failures : ℕ) : ℚ :=
  max 0 (1 - (failures : ℚ) / 10)

/-- `VideoSource._check_network_quality`:
`score = fps/30*0.3 + (1-drop_rate)*0.4 + stability*0.3`, clamped to [0,1].
Note the fps term is NOT individually capped at 1 in the code. -/
def check_network_quality (fps drop_rate : ℚ) (failures : ℕ) : ℚ :=
  let score := fps / 30 * (3/10) + (1 - drop_rate) * (4/10)
    + connection_stability failures * (3/10)
  max 0 (min 1 score)

/-- The score formula as the spec states it (for comparison with the code):
`0.3 × min(fps/30, 1) + 0.4 × (1 − drop_rate) + 0.3 × max(0, 1 − failures/10)`,
clamped to [0,1].  The fps term is individually capped at 1 here. -/
def spec_quality_formula (fps drop_rate : ℚ) (failures : ℕ) : ℚ :=
  max 0 (min 1 ((3/10) * min (fps / 30) 1 + (4/10) * (1 - drop_rate)
    + (3/10) * max 0 (1 - (failures : ℚ) / 10)))

/-- The amended formula: identical to the code, written in the spec's
`0.3 × …` ordering but without the inner `min(fps/30, 1)` cap. -/
def amended_quality_formula (fps drop_rate : ℚ) (failures : ℕ) : ℚ :=
  max 0 (min 1 ((3/10) * (fps / 30) + (4/10) * (1 - drop_rate)
    + (3/10) * max 0 (1 - (failures : ℚ) / 10)))

/-! ## Reconnection backoff (`VideoSource._read_frames`, exception path) -/

/-- The slice of `VideoSource` state that drives the reconnection backoff. -/
structure ConnState where
  backoff_delay : ℕ
  connection_failures : ℕ
  fps : ℚ
  frame_drop_rate : ℚ
  rtsp_transport : Transport
  is_local_file : Bool
deriving DecidableEq, Repr

/-- `VideoSource._should_switch_transport`: switch when `connection_failures
≥ 3` or the quality score is below 0.3. -/
def should_switch_transport (s : ConnState) : Bool :=
  decide (3 ≤ s.connection_failures)
    || decide (check_network_quality s.fps s.frame_drop_rate s.connection_failures < 3/10)

/-- Result of one pass through the exception handler and reconnection block
of `_read_frames`, as executed by the decode worker of a running source:
either the worker sleeps the emitted delay and retries, or it dies. -/
inductive FailOutcome where
  | retry (s : ConnState) (delay : ℕ) : FailOutcome
  | workerDied (s : ConnState) : FailOutcome
deriving DecidableEq, Repr

/-- One pass through the exception handler and reconnection block of
`_read_frames` (run on the decode worker of a running source): increment
`connection_failures`; for a network source that should switch transport,
`switch_transport_protocol()` toggles the protocol and then — because
`is_running` is true — calls `stop()`, whose `self._thread.join(timeout=5)`
joins the worker's own thread: Python raises
`RuntimeError("cannot join current thread")`, which propagates out of the
`except` block and kills the worker before line 413's backoff reset runs
(that line is unreachable on this path), with `is_running` left true.
Otherwise the worker sleeps the current backoff (the emitted delay) and
doubles it, capped at 30. -/
def failStep (s : ConnState) : FailOutcome :=
  let s₁ := { s with connection_failures := s.connection_failures + 1 }
  if ¬s₁.is_local_file ∧ should_switch_transport s₁ then
    .workerDied { s₁ with rtsp_transport := s₁.rtsp_transport.toggle }
  else
    .retry { s₁ with backoff_delay := min (s₁.backoff_delay * 2) 30 }
      s₁.backoff_delay

/-- Successful `av.open`: `connection_failures = 0` (line 324) and
`backoff_delay = 1` (line 334). -/
def successStep (s : ConnState) : ConnState :=
  { s with connection_failures := 0, backoff_delay := 1 }

/-- The delays slept over up to `n` consecutive failures with no
intervening success; the list ends early if the worker dies. -/
def failDelays : ConnState → ℕ → List ℕ
  | _, 0 => []
  | s, n + 1 =>
    match failStep s with
    | .retry s' d => d :: failDelays s' n
    | .workerDied _ => []

/-- A freshly connected-then-failing network source: first attempt, no
frames seen. -/
def freshNetState : ConnState :=
  { backoff_delay := 1, connection_failures := 0, fps := 0,
    frame_drop_rate := 0, rtsp_transport := .tcp, is_local_file := false }

/-- A local-file source in the same fresh state. -/
def freshLocalState : ConnState :=
  { freshNetState with is_local_file := true }

/-! ## VideoSource lifecycle (`start`, `stop`, `set_source_url`,
`_notify_connection_change`, `get_frame`) -/

/-- The seven characters of the scheme check in
`url.lower().startswith("rtsp://")`. -/
def rtspScheme : List Char := ['r', 't', 's', 'p', ':', '/', '/']

/-- `s.startswith(pat)` on character lists: `startsWithChars pat s`. -/
def startsWithChars : List Char → List Char → Bool
  | [], _ => true
  | _ :: _, [] => false
  | p :: ps, c :: cs => p = c && startsWithChars ps cs

/-- `not url.lower().startswith("rtsp://")`. -/
def isLocalUrl (url : List Char) : Bool :=
  ! startsWithChars rtspScheme (url.map Char.toLower)

/-- The `VideoSource` fields that the lifecycle operations read or write.
Frames are abstracted as naturals; the connection callback is assumed set
(the registry always installs one), and its invocations are returned as a
list. -/
structure VS where
  source_url : List Char
  is_running : Bool
  connection_ok : Bool
  stop_event : Bool
  is_local_file : Bool
  rtsp_transport : Transport
  resize_width : ℕ
  resize_height : ℕ
  buffer_size : ℕ
  workers : ℕ
  queue : List ℕ
deriving DecidableEq, Repr

/-- `VideoSource.start`: returns false when already running or when the
locator is empty (no state change); otherwise derives `is_local_file`,
clears the stop event, launches the decode worker, and marks running. -/
def startVS (s : VS) : VS × Bool :=
  if s.is_running then (s, false)
  else if s.source_url = [] then (s, false)
  else ({ s with is_local_file := isLocalUrl s.source_url,
                 stop_event := false, workers := s.workers + 1,
                 is_running := true }, true)

/-- `VideoSource.stop`: no-op unless running; otherwise signals the stop
event, marks not running, clears `connection_ok`, UNCONDITIONALLY invokes
the connection callback with `False`, and drains the queue. -/
def stopVS (s : VS) : VS × List Bool :=
  if s.is_running then
    ({ s with stop_event := true, is_running := false, connection_ok := false,
              queue := [] }, [false])
  else (s, [])

/-- `VideoSource._notify_connection_change`: edge-triggered — updates
`connection_ok` and fires the callback only when the value changes. -/
def notifyConnectionChange (s : VS) (is_connected : Bool) : VS × List Bool :=
  if s.connection_ok ≠ is_connected then
    ({ s with connection_ok := is_connected }, [is_connected])
  else (s, [])

/-- `VideoSource.set_source_url`: stops the source if running, then stores
the url and recomputes `is_local_file`. -/
def set_source_url (s : VS) (url : List Char) : VS × List Bool :=
  let p := if s.is_running then stopVS s else (s, [])
  ({ p.1 with source_url := url, is_local_file := isLocalUrl url }, p.2)

/-- The `av.open` options in `_read_frames` (lines 313-317): the transport
option is passed only for network sources; local files get no option. -/
def connection_options (s : VS) : Option Transport :=
  if s.is_local_file then none else some s.rtsp_transport

/-- `VideoSource.get_frame`: dequeue the oldest buffered frame; when none is
available within the timeout, return the placeholder frame. -/
def get_frame (queue : List ℕ) (dummy : ℕ) : ℕ × List ℕ :=
  match queue with
  | [] => (dummy, [])
  | f :: rest => (f, rest)

/-- The lifecycle operations whose callback behaviour C2 is about. -/
inductive VSOp where
  | start : VSOp
  | stop : VSOp
  | notify (is_connected : Bool) : VSOp
deriving DecidableEq, Repr

/-- One lifecycle operation; returns the new state and the callback
invocations it produced (`start` fires none itself). -/
def stepVS (s : VS) : VSOp → VS × List Bool
  | .start => ((startVS s).1, [])
  | .stop => stopVS s
  | .notify b => notifyConnectionChange s b

/-- Run a sequence of lifecycle operations, concatenating the callback
invocation logs. -/
def runVS : VS → List VSOp → VS × List Bool
  | s, [] => (s, [])
  | s, op :: ops =>
    ((runVS (stepVS s op).1 ops).1, (stepVS s op).2 ++ (runVS (stepVS s op).1 ops).2)

/-- Number of actual `connection_ok` transitions along a run. -/
def transCount : VS → List VSOp → ℕ
  | _, [] => 0
  | s, op :: ops =>
    (if s.connection_ok ≠ (stepVS s op).1.connection_ok then 1 else 0)
      + transCount (stepVS s op).1 ops

/-- Number of `stop` operations executed while running but with
`connection_ok` already false (these fire a callback without any
transition). -/
def redundantStopCount : VS → List VSOp → ℕ
  | _, [] => 0
  | s, op :: ops =>
    (if op = VSOp.stop ∧ s.is_running = true ∧ s.connection_ok = false
     then 1 else 0)
      + redundantStopCount (stepVS s op).1 ops

/-- A stopped, never-connected source with a nonempty locator. -/
def initVS : VS :=
  { source_url := ['f', 'i', 'l', 'e'], is_running := false,
    connection_ok := false, stop_event := false, is_local_file := false,
    rtsp_transport := .tcp, resize_width := 640, resize_height := 480,
    buffer_size := 10, workers := 0, queue := [] }

/-- An example non-rtsp network URL (`"http://cam"`). -/
def httpUrl : List Char := ['h', 't', 't', 'p', ':', '/', '/', 'c', 'a', 'm']

/-- An upper-case rtsp URL (`"RTSP://c"`), classified by its lowercase form. -/
def rtspUpperUrl : List Char := ['R', 'T', 'S', 'P', ':', '/', '/', 'c']

/-! ## Probe operations (`test_connection`, `get_recommended_transport`) -/

/-- Outcomes of the external `av.open` probe per transport. -/
structure ProbeEnv where
  tcp_ok : Bool
  udp_ok : Bool
deriving DecidableEq, Repr

/-- `VideoSource.test_connection`: opens the source once with the current
transport and reports the outcome; it mutates no field of the source. -/
def test_connection (s : VS) (env : ProbeEnv) : Bool × VS :=
  (match s.rtsp_transport with
   | .tcp => env.tcp_ok
   | .udp => env.udp_ok, s)

/-- `VideoSource.get_recommended_transport`: local files get tcp with no
probing; otherwise probe under tcp, then udp, restore the original
transport, and recommend per the code's table (udp preferred when both
work, tcp when neither). -/
def get_recommended_transport (s : VS) (env : ProbeEnv) : Transport × VS :=
  if s.is_local_file then (.tcp, s)
  else
    let original_transport := s.rtsp_transport
    let s₁ := { s with rtsp_transport := Transport.tcp }
    let tcpRes := test_connection s₁ env
    let s₂ := { tcpRes.2 with rtsp_transport := Transport.udp }
    let udpRes := test_connection s₂ env
    let s₃ := { udpRes.2 with rtsp_transport := original_transport }
    let recommendation :=
      if tcpRes.1 = true ∧ udpRes.1 = false then Transport.tcp
      else if udpRes.1 = true ∧ tcpRes.1 = false then Transport.udp
      else if tcpRes.1 = true ∧ udpRes.1 = true then Transport.udp
      else Transport.tcp
    (recommendation, s₃)

/-! ## Bounded frame buffer (`_read_frames` lines 370-377) -/

/-- One push in the decode loop: when the queue is full (Python
`Queue.full()` is `0 < maxsize ∧ maxsize ≤ qsize`), the oldest frame is
popped and counted in `dropped_frames_count`, then the new frame is
appended.  The state is `(buffered frames oldest-first, drop counter)`. -/
def pushFrame (cap : ℕ) (st : List ℕ × ℕ) (f : ℕ) : List ℕ × ℕ :=
  if 0 < cap ∧ cap ≤ st.1.length then (st.1.tail ++ [f], st.2 + 1)
  else (st.1 ++ [f], st.2)

/-- Push a sequence of decoded frames. -/
def pushAll (cap : ℕ) (st : List ℕ × ℕ) (fs : List ℕ) : List ℕ × ℕ :=
  fs.foldl (pushFrame cap) st

/-! ## Adaptive buffer resize (`VideoSource._update_buffer_size`) -/

/-- `_update_buffer_size` with the drop rate over the last window given:
returns the new capacity and the rebuilt queue.  `int(cap * 1.5)` and
`int(cap * 0.8)` truncate, i.e. `cap * 3 / 2` and `cap * 4 / 5` in ℕ.
Growing transfers the buffered frames oldest-first into the larger queue;
shrinking keeps only the most recent `new_buffer_size` frames. -/
def update_buffer_size (cap baseline : ℕ) (drop_rate : ℚ) (buf : List ℕ) :
    ℕ × List ℕ :=
  if 1/10 < drop_rate then
    let new_buffer_size := min (cap * 3 / 2) 60
    if new_buffer_size ≠ cap then (new_buffer_size, buf.take new_buffer_size)
    else (cap, buf)
  else if drop_rate < 1/100 ∧ baseline < cap then
    let new_buffer_size := max (cap * 4 / 5) baseline
    if new_buffer_size ≠ cap then
      (new_buffer_size, buf.drop (buf.length - new_buffer_size))
    else (cap, buf)
  else (cap, buf)

/-- The spec's unfloored growth formula `min(capacity × 1.5, 60)`, read as
exact rational arithmetic. -/
def spec_increase_capacity (cap : ℕ) : ℚ := min ((cap : ℚ) * (3/2)) 60

/-! ## Synchronizer (`SyncManager._capture_all_frames`, `_process_frames`) -/

/-- The slice of a `VideoSource` that `_capture_all_frames` touches. -/
structure Cam where
  connection_ok : Bool
  queue : List ℕ
  dummy : ℕ
deriving DecidableEq, Repr

/-- One source's part of `_capture_all_frames`: for a connected camera call
`get_frame` (the oldest buffered frame, or the placeholder), append
`(timestamp, frame)` to the history, and pop the front when the history
exceeds `max_buffer_size`. -/
def capture_frame (max_buffer_size : ℕ) (t : ℚ) (c : Cam)
    (hist : List (ℚ × ℕ)) : Cam × List (ℚ × ℕ) :=
  if c.connection_ok then
    let fr := get_frame c.queue c.dummy
    let h := hist ++ [(t, fr.1)]
    ({ c with queue := fr.2 }, if max_buffer_size < h.length then h.tail else h)
  else (c, hist)

/-- `_capture_all_frames` over the registry's cameras (entries are
`(camera_id, camera, its history)`). -/
def capture_all_frames (m : ℕ) (t : ℚ)
    (entries : List (ℕ × Cam × List (ℚ × ℕ))) :
    List (ℕ × Cam × List (ℚ × ℕ)) :=
  entries.map fun e => (e.1, capture_frame m t e.2.1 e.2.2)

/-- `_process_frames`: every callback is invoked with the newest
(`buffer[-1]`) cached frame of every camera whose history is nonempty;
returns the invocation log `(callback, camera_id, frame)`. -/
def process_frames (callbacks : List ℕ) (buffers : List (ℕ × List (ℚ × ℕ))) :
    List (ℕ × ℕ × ℕ) :=
  callbacks.flatMap fun cb =>
    buffers.filterMap fun e => (e.2.getLast?).map fun tf => (cb, e.1, tf.2)

/-! ## SourceRegistry (`CameraManager`) -/

/-- The registry state C8 is about: the keys of `self.cameras` in insertion
order, and the active pointer. -/
structure Registry where
  camera_ids : List ℕ
  active_camera_id : Option ℕ
deriving DecidableEq, Repr

/-- `CameraManager.add_camera`: insert (a Python dict keeps the position of
an existing key) and make active if no active camera exists. -/
def add_camera (r : Registry) (id : ℕ) : Registry :=
  { camera_ids := if id ∈ r.camera_ids then r.camera_ids else r.camera_ids ++ [id],
    active_camera_id := if r.active_camera_id = none then some id
      else r.active_camera_id }

/-- `CameraManager.remove_camera`: delete the key; if it was the active one,
the new active camera is `next(iter(self.cameras))` — the first remaining
key — or none when the map became empty. -/
def remove_camera (r : Registry) (id : ℕ) : Registry :=
  if id ∈ r.camera_ids then
    { camera_ids := r.camera_ids.erase id,
      active_camera_id := if r.active_camera_id = some id
        then (r.camera_ids.erase id).head? else r.active_camera_id }
  else r

/-- `CameraManager.set_active_camera`: only switches to an existing key. -/
def set_active_camera (r : Registry) (id : ℕ) : Registry :=
  if id ∈ r.camera_ids then { r with active_camera_id := some id } else r

/-- The registry operations C8 quantifies over. -/
inductive RegOp where
  | add (id : ℕ) : RegOp
  | remove (id : ℕ) : RegOp
  | set_active (id : ℕ) : RegOp
deriving DecidableEq, Repr

/-- Apply one registry operation. -/
def regStep (r : Registry) : RegOp → Registry
  | .add id => add_camera r id
  | .remove id => remove_camera r id
  | .set_active id => set_active_camera r id

/-- Run a sequence of registry operations. -/
def regRun : Registry → List RegOp → Registry
  | r, [] => r
  | r, op :: ops => regRun (regStep r op) ops

/-- A fresh `CameraManager` with no cameras. -/
def emptyRegistry : Registry := { camera_ids := [], active_camera_id := none }

/-- The C8 invariant: the active pointer, if set, refers to a present key. -/
def RegInv (r : Registry) : Prop :=
  ∀ a, r.active_camera_id = some a → a ∈ r.camera_ids

end FODCL

namespace FODCL

/-! # Theorems -/

/-- On a local-file source the exception path never attempts a transport
switch: one failure emits the current backoff and doubles it, capped
at 30. -/
theorem failStep_local (s : ConnState) (h : s.is_local_file = true) :
    failStep s
      = FailOutcome.retry
          { s with connection_failures := s.connection_failures + 1,
                   backoff_delay := min (s.backoff_delay * 2) 30 }
          s.backoff_delay := by
  simp [failStep, h]

/-- Unfolding one failure pass that retries. -/
theorem failDelays_retry (s s' : ConnState) (d n : ℕ)
    (h : failStep s = FailOutcome.retry s' d) :
    failDelays s (n + 1) = d :: failDelays s' n := by
  simp [failDelays, h]

/-- Unfolding one failure pass that kills the worker: no delay is emitted
and the sequence ends. -/
theorem failDelays_died (s s' : ConnState) (n : ℕ)
    (h : failStep s = FailOutcome.workerDied s') :
    failDelays s (n + 1) = [] := by
  simp [failDelays, h]

/-- First failure of a fresh live source: no switch (failures = 1, quality
0.67), sleep 1 s, backoff becomes 2. -/
theorem failStep_net_one :
    failStep freshNetState
      = FailOutcome.retry ⟨2, 1, 0, 0, Transport.tcp, false⟩ 1 := by
  norm_num [failStep, should_switch_transport, check_network_quality,
    connection_stability, freshNetState]

/-- Second failure: no switch (failures = 2, quality 0.64), sleep 2 s,
backoff becomes 4. -/
theorem failStep_net_two :
    failStep ⟨2, 1, 0, 0, Transport.tcp, false⟩
      = FailOutcome.retry ⟨4, 2, 0, 0, Transport.tcp, false⟩ 2 := by
  norm_num [failStep, should_switch_transport, check_network_quality,
    connection_stability]

/-- Third failure: failure count reaches 3, `switch_transport_protocol()`
toggles the transport and its `stop()` joins the worker's own thread — the
RuntimeError kills the worker; no delay is slept. -/
theorem failStep_net_three :
    failStep ⟨4, 2, 0, 0, Transport.tcp, false⟩
      = FailOutcome.workerDied ⟨4, 3, 0, 0, Transport.udp, false⟩ := by
  norm_num [failStep, should_switch_transport, Transport.toggle]

/-- A fresh live source failing with no intervening success sleeps only
1 s and 2 s: the third failure kills the decode worker. -/
theorem failDelays_net_dies :
    ∀ n, failDelays freshNetState (n + 3) = [1, 2] := by
  intro n
  rw [show n + 3 = (n + 2) + 1 from rfl,
    failDelays_retry _ _ _ _ failStep_net_one,
    show n + 2 = (n + 1) + 1 from rfl,
    failDelays_retry _ _ _ _ failStep_net_two,
    failDelays_died _ _ _ failStep_net_three]

/-- Doubling a backoff of the form `min (2^k) 30` (capped) yields
`min (2^(k+1)) 30`. -/
theorem min_double_pow (k : ℕ) :
    min (min (2 ^ k) 30 * 2) 30 = min (2 ^ (k + 1)) 30 := by
  have e : 2 ^ (k + 1) = 2 ^ k * 2 := pow_succ 2 k
  omega

/-- For a local source with backoff `min (2^k) 30`, the next `n` delays are
`min (2^(k+i)) 30` for `i = 0, …, n-1`. -/
theorem failDelays_local :
    ∀ (n k : ℕ) (s : ConnState), s.is_local_file = true →
      s.backoff_delay = min (2 ^ k) 30 →
      failDelays s n = (List.range n).map (fun i => min (2 ^ (k + i)) 30) := by
  intro n
  induction n with
  | zero => intro k s _ _; simp [failDelays]
  | succ n ih =>
    intro k s hloc hb
    rw [failDelays_retry _ _ _ _ (failStep_local s hloc), hb]
    rw [min_double_pow k]
    rw [ih (k + 1) { s with connection_failures := s.connection_failures + 1,
                            backoff_delay := min (2 ^ (k + 1)) 30 } hloc rfl]
    rw [List.range_succ_eq_map, List.map_cons, List.map_map, Nat.add_zero]
    refine List.cons_eq_cons.mpr ⟨rfl, List.map_congr_left fun i _ => ?_⟩
    simp only [Function.comp_apply]
    congr 2
    omega

/-- C1 counterexample: at fps = 90, drop_rate = 1, failures = 10 the code's
score is 0.9 (the uncapped fps term) whereas the spec formula gives 0.3. -/
theorem C1_counterexample :
    check_network_quality 90 1 10 = 9/10 ∧
    spec_quality_formula 90 1 10 = 3/10 ∧
    check_network_quality 90 1 10 ≠ spec_quality_formula 90 1 10 := by
  refine ⟨?_, ?_, ?_⟩ <;>
    norm_num [check_network_quality, spec_quality_formula, connection_stability]

/-- C1 (amended): the network quality score equals
`0.3 × (fps/30) + 0.4 × (1 − drop_rate) + 0.3 × max(0, 1 − failures/10)`
clamped to [0,1] — the fps term is not individually capped at 1 — and
(fps=30, drop=0, failures=0) yields exactly 1 while
(fps=0, drop=1, failures=10) yields exactly 0. -/
theorem C1_quality_score :
    (∀ (fps drop_rate : ℚ) (failures : ℕ),
        check_network_quality fps drop_rate failures
          = amended_quality_formula fps drop_rate failures) ∧
    check_network_quality 30 0 0 = 1 ∧
    check_network_quality 0 1 10 = 0 := by
  refine ⟨fun fps drop_rate failures => ?_, ?_, ?_⟩
  · unfold check_network_quality amended_quality_formula connection_stability
    ring_nf
  · norm_num [check_network_quality, connection_stability]
  · norm_num [check_network_quality, connection_stability]

/-- Counterexample to claim C3: a fresh live source (fps = 0, drop rate = 0)
failing repeatedly sleeps 1 s and 2 s only — not 1, 2, 4, 8, 16, 30 —
because the third failure reaches the transport-switch threshold
(`connection_failures ≥ 3`) and `switch_transport_protocol()` → `stop()`
joins the worker's own thread, raising a RuntimeError that kills the decode
worker (after the transport was already toggled to udp). -/
theorem C3_counterexample :
    failDelays freshNetState 7 = [1, 2] ∧
    failDelays freshNetState 7 ≠ [1, 2, 4, 8, 16, 30, 30] ∧
    failStep { freshNetState with backoff_delay := 4, connection_failures := 2 }
      = FailOutcome.workerDied
          { freshNetState with backoff_delay := 4, connection_failures := 3,
                               rtsp_transport := Transport.udp } := by
  have hd : failDelays freshNetState 7 = [1, 2] := failDelays_net_dies 4
  exact ⟨hd, by rw [hd]; decide, failStep_net_three⟩

/-- Claim C3 (amended): for a local-file source (which never attempts a
transport switch) the reconnection delays are exactly 1, 2, 4, 8, 16, 30,
30, …, and a successful reconnect resets the delay to 1 and the failure
count to 0.  For a live network source the delay doubles (capped at 30)
only while the transport-switch policy does not fire; when it fires
(failure count reaching 3, or quality score below 0.3) the switch toggles
the transport and then kills the decode worker — `stop()` joins the
worker's own thread and the RuntimeError propagates before line 413's
backoff reset, which is unreachable on this path — so a fresh live source
observes delays 1, 2 and then no further retries. -/
theorem C3_backoff :
    (∀ n, failDelays freshLocalState n
        = (List.range n).map (fun i => min (2 ^ i) 30)) ∧
    failDelays freshLocalState 7 = [1, 2, 4, 8, 16, 30, 30] ∧
    (∀ s : ConnState,
      (successStep s).backoff_delay = 1 ∧ (successStep s).connection_failures = 0) ∧
    (∀ s : ConnState, s.is_local_file = false →
      should_switch_transport
          { s with connection_failures := s.connection_failures + 1 } = true →
      failStep s
        = FailOutcome.workerDied
            { s with connection_failures := s.connection_failures + 1,
                     rtsp_transport := s.rtsp_transport.toggle }) ∧
    (∀ s : ConnState, s.is_local_file = false →
      should_switch_transport
          { s with connection_failures := s.connection_failures + 1 } = false →
      failStep s
        = FailOutcome.retry
            { s with connection_failures := s.connection_failures + 1,
                     backoff_delay := min (s.backoff_delay * 2) 30 }
            s.backoff_delay) ∧
    (∀ n, failDelays freshNetState (n + 3) = [1, 2]) := by
  refine ⟨fun n => ?_, ?_, fun s => ⟨rfl, rfl⟩, fun s hnet hsw => ?_,
    fun s hnet hsw => ?_, failDelays_net_dies⟩
  · simpa using failDelays_local n 0 freshLocalState rfl rfl
  · rw [failDelays_local 7 0 freshLocalState rfl rfl]; decide
  · rw [hnet] at hsw
    simp [failStep, hnet, hsw]
  · rw [hnet] at hsw
    simp [failStep, hnet, hsw]

/-- Witness for C3 (amended) at concrete states: the local-file delay
sequence, a worker-killing third failure of a live source, a non-switching
first failure, and the truncated live delay list. -/
theorem C3_backoff_witness :
    failDelays freshLocalState 7 = [1, 2, 4, 8, 16, 30, 30] ∧
    failStep { freshNetState with backoff_delay := 4, connection_failures := 2 }
      = FailOutcome.workerDied
          { freshNetState with backoff_delay := 4, connection_failures := 3,
                               rtsp_transport := Transport.udp } ∧
    failStep freshNetState
      = FailOutcome.retry
          { freshNetState with backoff_delay := 2, connection_failures := 1 }
          freshNetState.backoff_delay ∧
    failDelays freshNetState 7 = [1, 2] :=
  ⟨C3_backoff.2.1,
   C3_backoff.2.2.2.1
     { freshNetState with backoff_delay := 4, connection_failures := 2 }
     rfl (by decide),
   C3_backoff.2.2.2.2.1 freshNetState rfl (by
     norm_num [should_switch_transport, check_network_quality,
       connection_stability, freshNetState]),
   C3_backoff.2.2.2.2.2 4⟩

/-- One lifecycle step emits one callback exactly when `connection_ok`
transitions, or when the step is a `stop` of a running source whose
`connection_ok` is already false. -/
theorem stepVS_log_length (s : VS) (op : VSOp) :
    (stepVS s op).2.length
      = (if s.connection_ok ≠ (stepVS s op).1.connection_ok then 1 else 0)
        + (if op = VSOp.stop ∧ s.is_running = true ∧ s.connection_ok = false
           then 1 else 0) := by
  cases op with
  | start =>
    have h : (startVS s).1.connection_ok = s.connection_ok := by
      unfold startVS
      split
      · rfl
      · split <;> rfl
    simp [stepVS, h]
  | stop =>
    unfold stepVS stopVS
    rcases hrun : s.is_running <;> rcases hok : s.connection_ok <;>
      simp [hrun, hok]
  | notify b =>
    unfold stepVS notifyConnectionChange
    by_cases h : s.connection_ok = b <;> simp [h]

/-- Counterexample to claim C2: starting a never-connected source and then
stopping it fires one callback (`stop()` notifies unconditionally) although
`connection_ok` was false before the stop and never transitioned. -/
theorem C2_counterexample :
    (runVS initVS [VSOp.start, VSOp.stop]).2 = [false] ∧
    transCount initVS [VSOp.start, VSOp.stop] = 0 ∧
    initVS.connection_ok = false := by
  refine ⟨?_, ?_, rfl⟩ <;> decide

/-- Claim C2 (amended): `_notify_connection_change` is edge-triggered, but
`stop()` on a running source fires one callback unconditionally — over every
operation sequence the number of callback invocations equals the number of
`connection_ok` transitions plus the number of `stop()` calls executed while
running with `connection_ok` already false (so `stop()` fires at most one
notification). -/
theorem C2_notification_accounting :
    ∀ (ops : List VSOp) (s : VS),
      (runVS s ops).2.length = transCount s ops + redundantStopCount s ops := by
  intro ops
  induction ops with
  | nil => intro s; rfl
  | cons op ops ih =>
    intro s
    simp only [runVS, transCount, redundantStopCount, List.length_append,
      ih, stepVS_log_length]
    omega

/-- Counterexample to claim C4: with two buffered frames, the synchronizer's
pull (`get_frame`) hands back the OLDEST frame (10), not the newest
available one (20). -/
theorem C4_counterexample :
    (capture_frame 30 0 { connection_ok := true, queue := [10, 20], dummy := 99 }
        []).2 = [(0, 10)] ∧
    ({ connection_ok := true, queue := [10, 20], dummy := 99 } : Cam).queue.getLast?
      = some 20 ∧
    (10 : ℕ) ≠ 20 := by
  refine ⟨?_, by decide, by decide⟩
  simp [capture_frame, get_frame]

/-- Claim C4 (amended): each Synchronizer iteration pulls, for every
connected source, the OLDEST buffered frame (the FIFO head, or the
placeholder when the buffer is empty) and appends `(timestamp, frame)` to
that source's history, capped at the configured length; disconnected sources
are untouched; then every registered callback is invoked with each cached
source's newest (`buffer[-1]`) cached frame. -/
theorem C4_sync_loop :
    (∀ (m : ℕ) (t : ℚ) (c : Cam) (hist : List (ℚ × ℕ)), c.connection_ok = true →
      capture_frame m t c hist
        = ({ c with queue := c.queue.tail },
           if m < (hist ++ [(t, c.queue.headD c.dummy)]).length
           then (hist ++ [(t, c.queue.headD c.dummy)]).tail
           else hist ++ [(t, c.queue.headD c.dummy)])) ∧
    (∀ (m : ℕ) (t : ℚ) (c : Cam) (hist : List (ℚ × ℕ)), c.connection_ok = false →
      capture_frame m t c hist = (c, hist)) ∧
    (∀ (m : ℕ) (t : ℚ) (c : Cam) (hist : List (ℚ × ℕ)), hist.length ≤ m →
      (capture_frame m t c hist).2.length ≤ m) ∧
    (∀ (cbs : List ℕ) (buffers : List (ℕ × List (ℚ × ℕ))) (cb id f : ℕ),
      (cb, id, f) ∈ process_frames cbs buffers ↔
        cb ∈ cbs ∧ ∃ h t, (id, h) ∈ buffers ∧ h.getLast? = some (t, f)) := by
  refine ⟨fun m t c hist hc => ?_, fun m t c hist hc => ?_,
    fun m t c hist hlen => ?_, fun cbs buffers cb id f => ?_⟩
  · cases hq : c.queue with
    | nil => simp [capture_frame, get_frame, hc, hq]
    | cons q qs => simp [capture_frame, get_frame, hc, hq]
  · simp [capture_frame, hc]
  · cases hc : c.connection_ok with
    | false => simpa [capture_frame, hc] using hlen
    | true =>
      simp only [capture_frame, hc, if_true]
      split
      · simp only [List.length_tail, List.length_append, List.length_singleton]
        omega
      · rename_i hnot
        simp only [List.length_append, List.length_singleton] at hnot ⊢
        omega
  · constructor
    · intro hmem
      rcases List.mem_flatMap.mp hmem with ⟨cb', hcb', hin⟩
      rcases List.mem_filterMap.mp hin with ⟨e, he, hsome⟩
      rcases Option.map_eq_some'.mp hsome with ⟨tf, hlast, heq⟩
      obtain ⟨h1, h2, h3⟩ : cb' = cb ∧ e.1 = id ∧ tf.2 = f := by
        simpa [Prod.ext_iff] using heq
      subst h1
      refine ⟨hcb', e.2, tf.1, ?_, ?_⟩
      · rw [← h2]
        simpa using he
      · rw [← h3]
        simpa using hlast
    · rintro ⟨hcb, h, t, hbuf, hlast⟩
      exact List.mem_flatMap.mpr
        ⟨cb, hcb, List.mem_filterMap.mpr ⟨(id, h), hbuf, by simp [hlast]⟩⟩

/-- Witness for C4 (amended) at concrete states: a connected two-frame
capture, a disconnected no-op, a history-cap check, and one callback
invocation. -/
theorem C4_sync_loop_witness :
    capture_frame 30 0 { connection_ok := true, queue := [7, 8], dummy := 99 } []
      = ({ connection_ok := true, queue := [8], dummy := 99 }, [((0 : ℚ), 7)]) ∧
    capture_frame 30 0 { connection_ok := false, queue := [7, 8], dummy := 99 } []
      = ({ connection_ok := false, queue := [7, 8], dummy := 99 }, []) ∧
    (capture_frame 1 0 { connection_ok := true, queue := [7, 8], dummy := 99 }
        [((0 : ℚ), 5)]).2.length ≤ 1 ∧
    ((3, 4, 7) ∈ process_frames [3] [(4, [((0 : ℚ), 7)])] ↔
      3 ∈ [3] ∧ ∃ h t, ((4 : ℕ), h) ∈ [((4 : ℕ), [((0 : ℚ), 7)])]
        ∧ h.getLast? = some (t, 7)) := by
  refine ⟨?_, C4_sync_loop.2.1 30 0 _ [] rfl,
    C4_sync_loop.2.2.1 1 0 _ [((0 : ℚ), 5)] (by simp),
    C4_sync_loop.2.2.2 [3] [(4, [((0 : ℚ), 7)])] 3 4 7⟩
  rw [C4_sync_loop.1 30 0 _ [] rfl]
  simp

/-- Closed form of pushing a frame sequence into the bounded queue starting
from a buffer within capacity: the final buffer is the last `cap` frames of
`buf ++ fs` (in order) and the drop counter advances by the overflow. -/
theorem pushAll_closed (cap : ℕ) (hcap : 0 < cap) :
    ∀ (fs buf : List ℕ) (d : ℕ), buf.length ≤ cap →
      pushAll cap (buf, d) fs
        = ((buf ++ fs).drop (buf.length + fs.length - cap),
           d + (buf.length + fs.length - cap)) := by
  intro fs
  induction fs with
  | nil =>
    intro buf d h
    simp [pushAll, Nat.sub_eq_zero_of_le h]
  | cons f fs ih =>
    intro buf d h
    show pushAll cap (pushFrame cap (buf, d) f) fs = _
    by_cases hfull : cap ≤ buf.length
    · have hlen : buf.length = cap := le_antisymm h hfull
      have hne : buf ≠ [] := by
        intro e
        subst e
        simp at hlen
        omega
      obtain ⟨b, bt, rfl⟩ := List.exists_cons_of_ne_nil hne
      have hL : bt.length + 1 = cap := by simpa using hlen
      rw [pushFrame, if_pos ⟨hcap, hfull⟩]
      simp only [List.tail_cons]
      rw [ih (bt ++ [f]) (d + 1)
        (by simp only [List.length_append, List.length_singleton,
              List.length_cons, List.length_nil]
            omega)]
      have e1 : (bt ++ [f]).length + fs.length - cap = fs.length := by
        simp only [List.length_append, List.length_singleton,
          List.length_cons, List.length_nil]
        omega
      have e2 : (b :: bt).length + (f :: fs).length - cap = fs.length + 1 := by
        simp only [List.length_cons]
        omega
      rw [e1, e2]
      simp only [Prod.mk.injEq]
      constructor
      · rw [List.append_assoc, List.singleton_append, List.cons_append,
          List.drop_succ_cons]
      · omega
    · rw [pushFrame, if_neg (fun hc => hfull hc.2)]
      rw [ih (buf ++ [f]) d
        (by simp only [List.length_append, List.length_singleton,
              List.length_cons, List.length_nil]
            omega)]
      have e3 : (buf ++ [f]).length + fs.length - cap
          = buf.length + (f :: fs).length - cap := by
        simp only [List.length_append, List.length_singleton,
          List.length_cons, List.length_nil]
        omega
      rw [List.append_assoc, List.singleton_append, e3]

/-- Claim C5: the buffered length never exceeds the (positive) capacity for
any push sequence, and pushing `cap + k` frames (k > 0) into an empty buffer
drops exactly the `k` oldest frames — each counted — leaving the remaining
frames in original temporal order (dequeued oldest-first by `get_frame`). -/
theorem C5_buffer_fifo (cap : ℕ) (hcap : 0 < cap) :
    (∀ (buf : List ℕ) (d : ℕ) (fs : List ℕ), buf.length ≤ cap →
      (pushAll cap (buf, d) fs).1.length ≤ cap) ∧
    (∀ (fs : List ℕ) (k : ℕ), 0 < k → fs.length = cap + k →
      pushAll cap ([], 0) fs = (fs.drop k, k)) := by
  constructor
  · intro buf d fs h
    rw [pushAll_closed cap hcap fs buf d h]
    simp only [List.length_drop, List.length_append]
    omega
  · intro fs k hk hlen
    rw [pushAll_closed cap hcap fs [] 0 (by simp)]
    simp only [List.nil_append, List.length_nil, Nat.zero_add, hlen]
    have e : cap + k - cap = k := by omega
    rw [e]

/-- Witness for C5 at capacity 2: the invariant after pushing three frames
onto `[5]`, and the drop-oldest outcome of pushing `[1, 2, 3]` into an empty
buffer. -/
theorem C5_buffer_fifo_witness :
    (0 : ℕ) < 2 ∧
    (pushAll 2 ([5], 0) [1, 2, 3]).1.length ≤ 2 ∧
    pushAll 2 (([] : List ℕ), 0) [1, 2, 3] = ([2, 3], 1) :=
  ⟨by decide,
   (C5_buffer_fifo 2 (by decide)).1 [5] 0 [1, 2, 3] (by decide),
   (C5_buffer_fifo 2 (by decide)).2 [1, 2, 3] 1 (by decide) (by decide)⟩

/-- Claim C6: `start()` returns true, clears the stop event, launches the
decode worker and marks running exactly when not already running and the
locator is nonempty; when already running it returns false and launches no
second worker; with an empty locator it returns false with no state
change. -/
theorem C6_start (s : VS) :
    ((startVS s).2 = true ↔ s.is_running = false ∧ s.source_url ≠ []) ∧
    (s.is_running = false → s.source_url ≠ [] →
      startVS s = ({ s with is_local_file := isLocalUrl s.source_url,
                            stop_event := false, workers := s.workers + 1,
                            is_running := true }, true)) ∧
    (s.is_running = true → startVS s = (s, false)) ∧
    (s.is_running = false → s.source_url = [] → startVS s = (s, false)) := by
  refine ⟨?_, fun h1 h2 => ?_, fun h => ?_, fun h1 h2 => ?_⟩
  · unfold startVS
    rcases hrun : s.is_running <;> by_cases hurl : s.source_url = [] <;>
      simp [hrun, hurl]
  · simp [startVS, h1, h2]
  · simp [startVS, h]
  · simp [startVS, h1, h2]

/-- Witness for C6 at concrete states: a successful start, a second start
while running, and a start with an empty locator. -/
theorem C6_start_witness :
    startVS initVS
      = ({ initVS with is_local_file := true, stop_event := false,
                       workers := 1, is_running := true }, true) ∧
    startVS { initVS with is_running := true }
      = ({ initVS with is_running := true }, false) ∧
    startVS { initVS with source_url := [] }
      = ({ initVS with source_url := [] }, false) := by
  refine ⟨?_, ?_, ?_⟩
  · rw [(C6_start initVS).2.1 rfl (by decide)]
    decide
  · exact (C6_start _).2.2.1 rfl
  · exact (C6_start _).2.2.2 rfl rfl

/-- Counterexample to claim C7: at capacity 11 with drop rate 0.15 the code
computes `min(int(11 × 1.5), 60) = 16`, while the claim's formula
`min(11 × 1.5, 60)` gives 16.5 — the claim omits the integer truncation. -/
theorem C7_counterexample :
    (update_buffer_size 11 10 (3/20) []).1 = 16 ∧
    spec_increase_capacity 11 = 33/2 ∧
    ((update_buffer_size 11 10 (3/20) []).1 : ℚ) ≠ spec_increase_capacity 11 := by
  have h1 : (update_buffer_size 11 10 (3/20) ([] : List ℕ)).1 = 16 := by
    norm_num [update_buffer_size]
  have h2 : spec_increase_capacity 11 = 33/2 := by
    norm_num [spec_increase_capacity]
  exact ⟨h1, h2, by rw [h1, h2]; norm_num⟩

/-- Claim C7 (amended): with drop rate > 0.10 the new capacity is
`min(⌊capacity × 1.5⌋, 60)` (integer truncation) and the buffered frames are
transferred in order (all of them whenever they fit, which holds for any
capacity ≤ 60); with drop rate < 0.01 and capacity above the baseline the
new capacity is `max(⌊capacity × 0.8⌋, baseline)` and only the most recent
`new_capacity` frames are kept; drop rate 0.15 at capacity 30 yields 45 and
drop rate 0.005 at capacity 45 with baseline 30 yields 36. -/
theorem C7_adaptive_resize :
    (∀ (cap baseline : ℕ) (drop_rate : ℚ) (buf : List ℕ), 1/10 < drop_rate →
      (update_buffer_size cap baseline drop_rate buf).1 = min (cap * 3 / 2) 60 ∧
      (buf.length ≤ cap → cap ≤ 60 →
        (update_buffer_size cap baseline drop_rate buf).2 = buf)) ∧
    (∀ (cap baseline : ℕ) (drop_rate : ℚ) (buf : List ℕ),
      drop_rate < 1/100 → baseline < cap →
      (update_buffer_size cap baseline drop_rate buf).1
        = max (cap * 4 / 5) baseline ∧
      (update_buffer_size cap baseline drop_rate buf).2
        = buf.drop (buf.length - max (cap * 4 / 5) baseline)) ∧
    (∀ (baseline : ℕ) (buf : List ℕ),
      (update_buffer_size 30 baseline (3/20) buf).1 = 45) ∧
    (∀ buf : List ℕ, (update_buffer_size 45 30 (1/200) buf).1 = 36) := by
  have increase : ∀ (cap baseline : ℕ) (drop_rate : ℚ) (buf : List ℕ),
      1/10 < drop_rate →
      (update_buffer_size cap baseline drop_rate buf).1 = min (cap * 3 / 2) 60 ∧
      (buf.length ≤ cap → cap ≤ 60 →
        (update_buffer_size cap baseline drop_rate buf).2 = buf) := by
    intro cap baseline drop_rate buf h
    rw [update_buffer_size, if_pos h]
    by_cases hne : min (cap * 3 / 2) 60 ≠ cap
    · rw [if_pos hne]
      refine ⟨rfl, fun hlen hcap => ?_⟩
      apply List.take_of_length_le
      omega
    · rw [if_neg hne]
      push_neg at hne
      exact ⟨hne.symm, fun _ _ => rfl⟩
  have decrease : ∀ (cap baseline : ℕ) (drop_rate : ℚ) (buf : List ℕ),
      drop_rate < 1/100 → baseline < cap →
      (update_buffer_size cap baseline drop_rate buf).1
        = max (cap * 4 / 5) baseline ∧
      (update_buffer_size cap baseline drop_rate buf).2
        = buf.drop (buf.length - max (cap * 4 / 5) baseline) := by
    intro cap baseline drop_rate buf h hb
    have hnot : ¬(1/10 < drop_rate) := by
      intro hgt
      have h10 : (1 : ℚ)/100 < 1/10 := by norm_num
      linarith
    have hne : max (cap * 4 / 5) baseline ≠ cap := by omega
    rw [update_buffer_size, if_neg hnot, if_pos ⟨h, hb⟩, if_pos hne]
    exact ⟨rfl, rfl⟩
  refine ⟨increase, decrease, fun baseline buf => ?_, fun buf => ?_⟩
  · rw [(increase 30 baseline (3/20) buf (by norm_num)).1]
    decide
  · rw [(decrease 45 30 (1/200) buf (by norm_num) (by norm_num)).1]
    decide

/-- Witness for C7 (amended) at concrete buffers: the growth branch at
capacity 30, the shrink branch at capacity 45 with baseline 30, and the two
numeric examples. -/
theorem C7_adaptive_resize_witness :
    ((update_buffer_size 30 10 (3/20) [1, 2, 3]).1 = min (30 * 3 / 2) 60 ∧
      (update_buffer_size 30 10 (3/20) [1, 2, 3]).2 = [1, 2, 3]) ∧
    ((update_buffer_size 45 30 (1/200) [1, 2, 3]).1 = max (45 * 4 / 5) 30 ∧
      (update_buffer_size 45 30 (1/200) [1, 2, 3]).2
        = [1, 2, 3].drop ([1, 2, 3].length - max (45 * 4 / 5) 30)) ∧
    (update_buffer_size 30 7 (3/20) [4]).1 = 45 ∧
    (update_buffer_size 45 30 (1/200) [4]).1 = 36 :=
  ⟨⟨(C7_adaptive_resize.1 30 10 (3/20) [1, 2, 3] (by norm_num)).1,
    (C7_adaptive_resize.1 30 10 (3/20) [1, 2, 3] (by norm_num)).2
      (by decide) (by decide)⟩,
   C7_adaptive_resize.2.1 45 30 (1/200) [1, 2, 3] (by norm_num) (by norm_num),
   C7_adaptive_resize.2.2.1 7 [4],
   C7_adaptive_resize.2.2.2 [4]⟩

/-- Every single registry operation preserves the active-pointer
invariant. -/
theorem regStep_inv (r : Registry) (op : RegOp) (h : RegInv r) :
    RegInv (regStep r op) := by
  obtain ⟨keys, act⟩ := r
  intro a ha
  cases op with
  | add id =>
    simp only [regStep, add_camera] at ha ⊢
    by_cases hact : act = none
    · rw [if_pos hact] at ha
      obtain rfl : id = a := by simpa using ha
      split
      · assumption
      · simp
    · rw [if_neg hact] at ha
      have hmem := h a ha
      split
      · exact hmem
      · exact List.mem_append_left _ hmem
  | remove id =>
    by_cases hid : id ∈ keys
    · simp only [regStep, remove_camera, if_pos hid] at ha ⊢
      by_cases haid : act = some id
      · rw [if_pos haid] at ha
        exact List.mem_of_mem_head? ha
      · rw [if_neg haid] at ha
        have hne : a ≠ id := by
          intro e
          exact haid (by rw [ha, e])
        exact (List.mem_erase_of_ne hne).mpr (h a ha)
    · simp only [regStep, remove_camera, if_neg hid] at ha ⊢
      exact h a ha
  | set_active id =>
    by_cases hid : id ∈ keys
    · simp only [regStep, set_active_camera, if_pos hid] at ha ⊢
      obtain rfl : id = a := by simpa using ha
      exact hid
    · simp only [regStep, set_active_camera, if_neg hid] at ha ⊢
      exact h a ha

/-- The invariant is preserved along any operation sequence. -/
theorem regRun_inv : ∀ (ops : List RegOp) (r : Registry),
    RegInv r → RegInv (regRun r ops)
  | [], _, h => h
  | op :: ops, r, h => regRun_inv ops _ (regStep_inv r op h)

/-- Claim C8: along every sequence of add/remove/set_active operations from
an empty registry, the active pointer, when set, names a present key; and
removing the active source reassigns the pointer to some remaining key, or
to none when the map becomes empty. -/
theorem C8_registry_invariant :
    (∀ ops : List RegOp, RegInv (regRun emptyRegistry ops)) ∧
    (∀ (r : Registry) (id : ℕ), RegInv r → r.active_camera_id = some id →
      ((remove_camera r id).camera_ids = [] →
        (remove_camera r id).active_camera_id = none) ∧
      ((remove_camera r id).camera_ids ≠ [] →
        ∃ a, (remove_camera r id).active_camera_id = some a ∧
          a ∈ (remove_camera r id).camera_ids)) := by
  constructor
  · intro ops
    exact regRun_inv ops emptyRegistry (fun a ha => by simp [emptyRegistry] at ha)
  · intro r id hinv hact
    have hid : id ∈ r.camera_ids := hinv id hact
    simp only [remove_camera, if_pos hid, hact, if_pos rfl]
    constructor
    · intro he
      simp [he]
    · intro hne
      cases hh : (r.camera_ids.erase id).head? with
      | none => exact absurd (List.head?_eq_none_iff.mp hh) hne
      | some b => exact ⟨b, rfl, List.mem_of_mem_head? hh⟩

/-- Witness for C8: a concrete operation sequence, and removal of the
active camera from a two-camera registry. -/
theorem C8_registry_invariant_witness :
    RegInv (regRun emptyRegistry
      [RegOp.add 1, RegOp.add 2, RegOp.set_active 2, RegOp.remove 1]) ∧
    (((remove_camera ⟨[1, 2], some 2⟩ 2).camera_ids = [] →
        (remove_camera ⟨[1, 2], some 2⟩ 2).active_camera_id = none) ∧
      ((remove_camera ⟨[1, 2], some 2⟩ 2).camera_ids ≠ [] →
        ∃ a, (remove_camera ⟨[1, 2], some 2⟩ 2).active_camera_id = some a ∧
          a ∈ (remove_camera ⟨[1, 2], some 2⟩ 2).camera_ids)) :=
  ⟨C8_registry_invariant.1 _,
   C8_registry_invariant.2 ⟨[1, 2], some 2⟩ 2
     (by intro a ha; simp at ha; simp [ha]) rfl⟩

/-- Claim C9: after `set_source_url` (nonempty url) or a successful path of
`start()`, `is_local_file` is true exactly when the lowercased locator does
not begin with rtsp://; hence the http URL is classified as a local file
(and an upper-case RTSP URL is not), and a local classification removes the
transport option from the open call. -/
theorem C9_local_file_classification :
    (∀ (s : VS) (url : List Char), url ≠ [] →
      (set_source_url s url).1.is_local_file
        = ! startsWithChars rtspScheme (url.map Char.toLower)) ∧
    (∀ s : VS, s.is_running = false → s.source_url ≠ [] →
      (startVS s).1.is_local_file
        = ! startsWithChars rtspScheme (s.source_url.map Char.toLower)) ∧
    (∀ s : VS, (set_source_url s httpUrl).1.is_local_file = true) ∧
    (∀ s : VS, (set_source_url s rtspUpperUrl).1.is_local_file = false) ∧
    (∀ s : VS, s.is_local_file = true → connection_options s = none) := by
  refine ⟨fun s url _ => ?_, fun s h1 h2 => ?_, fun s => ?_, fun s => ?_,
    fun s h => ?_⟩
  · simp [set_source_url, isLocalUrl]
  · simp [startVS, h1, h2, isLocalUrl]
  · simp [set_source_url, isLocalUrl]
    decide
  · simp [set_source_url, isLocalUrl]
    decide
  · simp [connection_options, h]

/-- Witness for C9 at concrete URLs: the http URL is local, the upper-case
rtsp URL is not, and the classification for the start path. -/
theorem C9_local_file_classification_witness :
    (set_source_url initVS httpUrl).1.is_local_file
        = ! startsWithChars rtspScheme (httpUrl.map Char.toLower) ∧
    (startVS initVS).1.is_local_file
        = ! startsWithChars rtspScheme (initVS.source_url.map Char.toLower) ∧
    (set_source_url initVS httpUrl).1.is_local_file = true ∧
    (set_source_url initVS rtspUpperUrl).1.is_local_file = false ∧
    connection_options { initVS with is_local_file := true } = none :=
  ⟨C9_local_file_classification.1 initVS httpUrl (by decide),
   C9_local_file_classification.2.1 initVS rfl (by decide),
   C9_local_file_classification.2.2.1 initVS,
   C9_local_file_classification.2.2.2.1 initVS,
   C9_local_file_classification.2.2.2.2 _ rfl⟩

/-- Claim C10: `get_recommended_transport` on a network source restores
`rtsp_transport` to its prior value (the two probes change it only
temporarily) and modifies no other field — the final state equals the
initial one. -/
theorem C10_probe_preserves_state (s : VS) (env : ProbeEnv)
    (hnet : s.is_local_file = false) :
    (get_recommended_transport s env).2 = s ∧
    (get_recommended_transport s env).2.rtsp_transport = s.rtsp_transport := by
  have h : (get_recommended_transport s env).2 = s := by
    cases s
    subst hnet
    simp [get_recommended_transport, test_connection]
  exact ⟨h, by rw [h]⟩

/-- Witness for C10 at a concrete network source and probe outcome. -/
theorem C10_probe_preserves_state_witness :
    (get_recommended_transport initVS ⟨true, false⟩).2 = initVS ∧
    (get_recommended_transport initVS ⟨true, false⟩).2.rtsp_transport
      = initVS.rtsp_transport :=
  C10_probe_preserves_state initVS ⟨true, false⟩ rfl

end FODCL
